import Mathlib

/-!
Verification of the `hips` repository (HEALPix → HiPS conversion and HiPS tile
fetching) against its natural-language specification.

The development shallowly embeds the two source files

  * `hips/tiles/fetch.py`  (class `HipsTileFetcher`)
  * `hips/draw/healpix.py` (`healpix_to_hips_tile`, `healpix_to_hips`)

as executable Lean definitions.  Machine arithmetic is `Nat`; Python
exceptions are `Except`/`Option`; byte payloads and network effects are
abstracted by a deterministic `server : List Char → Except ε β` map from the
requested URL string to either a payload or a failure; the order in which
concurrently submitted fetches complete is an explicit parameter
`comp : List Nat` (a permutation of the task indices).

External collaborators that are part of the repository but not present in the
given sources (the HEALPix index-permutation helper, tile paths, survey
properties) are modelled from the spec; each such definition's doc comment
says so explicitly.
-/

deriving instance DecidableEq for Except

namespace Hips

/-! ## Strings, decimal digits and Python `str.format` on URL templates

Python URL strings may contain `str.format` replacement fields.  A URL string
is modelled as a list of segments: literal character runs (well-formed when
brace-free) and replacement fields.  `renderUrl` is the underlying string
(a field shows as an opening and a closing brace); `formatUrl u idx` is
`url.format(idx)`, substituting the decimal digits of `idx` for each field. -/

/-- Opening curly brace character (written via its code point). -/
def lbrace : Char := Char.ofNat 123

/-- Closing curly brace character (written via its code point). -/
def rbrace : Char := Char.ofNat 125

/-- Decimal digit character for a value below ten, as produced by Python `str`. -/
def digitChar (n : Nat) : Char := Char.ofNat (48 + n)

/-- Fuel-driven decimal digit expansion (structural recursion, so that
concrete instances evaluate inside the kernel). -/
def natDigitsAux : Nat → Nat → List Char
  | 0, _ => []
  | fuel + 1, n =>
    if n < 10 then [digitChar n]
    else natDigitsAux fuel (n / 10) ++ [digitChar (n % 10)]

/-- Decimal digit string of a natural number, modelling Python `str(idx)`. -/
def natDigits (n : Nat) : List Char := natDigitsAux (n + 1) n

/-- Segment of a URL format string: a literal character run or a replacement
field (Python `str.format` placeholder). -/
inductive UrlPart where
  | lit (cs : List Char)
  | field
deriving DecidableEq

/-- URL format string: a list of segments. -/
abbrev Url : Type := List UrlPart

/-- Characters of one segment in the un-formatted URL string (a replacement
field shows as a pair of braces). -/
def renderPart : UrlPart → List Char
  | .lit cs => cs
  | .field => [lbrace, rbrace]

/-- Characters of the URL string as built (before any `str.format`). -/
def renderUrl (u : Url) : List Char :=
  u.flatMap renderPart

/-- Characters of one segment after `format idx`: fields become the decimal
digits of `idx`. -/
def formatPart (idx : Nat) : UrlPart → List Char
  | .lit cs => cs
  | .field => natDigits idx

/-- Characters of `url.format(idx)` for a URL template. -/
def formatUrl (u : Url) (idx : Nat) : List Char :=
  u.flatMap (formatPart idx)

/-- Well-formedness of one URL segment as a model of a Python string: literal
runs contain no brace (a literal brace would itself be format syntax). -/
def partWF : UrlPart → Bool
  | .lit cs => !(cs.contains lbrace) && !(cs.contains rbrace)
  | .field => true

/-- Well-formedness of a URL template: every literal run is brace-free. -/
def urlWF (u : Url) : Bool :=
  u.all partWF

/-- URL template with no replacement field (no `str.format` placeholder). -/
def fieldFree (u : Url) : Bool :=
  !(u.contains UrlPart.field)

theorem digitChar_ne_brace {n : Nat} (h : n < 10) :
    digitChar n ≠ lbrace ∧ digitChar n ≠ rbrace := by
  interval_cases n <;> exact ⟨by decide, by decide⟩

theorem natDigitsAux_ne_brace (fuel : Nat) :
    ∀ n, ∀ c ∈ natDigitsAux fuel n, c ≠ lbrace ∧ c ≠ rbrace := by
  induction fuel with
  | zero => intro n c hc; cases hc
  | succ fuel ih =>
    intro n c hc
    rw [natDigitsAux] at hc
    by_cases h : n < 10
    · simp only [if_pos h, List.mem_singleton] at hc
      subst hc
      exact digitChar_ne_brace h
    · simp only [if_neg h, List.mem_append, List.mem_singleton] at hc
      rcases hc with hc | hc
      · exact ih (n / 10) c hc
      · subst hc
        exact digitChar_ne_brace (Nat.mod_lt _ (by omega))

theorem natDigits_ne_brace (n : Nat) :
    ∀ c ∈ natDigits n, c ≠ lbrace ∧ c ≠ rbrace :=
  natDigitsAux_ne_brace (n + 1) n

/-- Count of opening braces in the rendered URL equals the number of fields. -/
theorem count_lbrace_renderUrl (u : Url) (hwf : urlWF u = true) :
    (renderUrl u).count lbrace = (u.filter (fun p => p == UrlPart.field)).length := by
  induction u with
  | nil => rfl
  | cons p rest ih =>
    rw [urlWF, List.all_cons, Bool.and_eq_true] at hwf
    rw [renderUrl, List.flatMap_cons, List.count_append]
    rw [renderUrl] at ih
    rw [ih hwf.2]
    cases p with
    | lit cs =>
        have hb : lbrace ∉ cs := by
          have := hwf.1
          simp only [partWF, Bool.and_eq_true, Bool.not_eq_true'] at this
          intro hmem
          rw [List.contains_eq_any_beq] at this
          have h2 := this.1
          rw [List.any_eq_false] at h2
          exact absurd (by simp) (h2 lbrace hmem)
        have : (renderPart (UrlPart.lit cs)).count lbrace = 0 := by
          simp only [renderPart]
          exact List.count_eq_zero.mpr hb
        rw [this, List.filter_cons_of_neg (by simp)]
        omega
    | field =>
        have : (renderPart UrlPart.field).count lbrace = 1 := by decide
        rw [this, List.filter_cons_of_pos (by decide)]
        simp only [List.length_cons]
        omega

/-- Formatted URLs contain no braces at all. -/
theorem count_lbrace_formatUrl (u : Url) (idx : Nat) (hwf : urlWF u = true) :
    (formatUrl u idx).count lbrace = 0 := by
  induction u with
  | nil => rfl
  | cons p rest ih =>
    rw [urlWF, List.all_cons, Bool.and_eq_true] at hwf
    rw [formatUrl, List.flatMap_cons, List.count_append]
    rw [formatUrl] at ih
    rw [ih hwf.2]
    cases p with
    | lit cs =>
        have hb : lbrace ∉ cs := by
          have := hwf.1
          simp only [partWF, Bool.and_eq_true, Bool.not_eq_true'] at this
          intro hmem
          rw [List.contains_eq_any_beq] at this
          have h2 := this.1
          rw [List.any_eq_false] at h2
          exact absurd (by simp) (h2 lbrace hmem)
        simp only [formatPart]
        rw [List.count_eq_zero.mpr hb]
    | field =>
        simp only [formatPart]
        rw [List.count_eq_zero.mpr]
        intro hc
        exact (natDigits_ne_brace idx lbrace hc).1 rfl

/-- A field-free URL formats to itself. -/
theorem formatUrl_eq_renderUrl_of_fieldFree (u : Url) (idx : Nat)
    (hff : fieldFree u = true) : formatUrl u idx = renderUrl u := by
  induction u with
  | nil => rfl
  | cons p rest ih =>
    rw [fieldFree, Bool.not_eq_true', List.contains_cons, Bool.or_eq_false_iff] at hff
    have hff' : fieldFree rest = true := by
      rw [fieldFree, Bool.not_eq_true']
      exact hff.2
    rw [formatUrl, List.flatMap_cons, renderUrl, List.flatMap_cons]
    rw [formatUrl, renderUrl] at ih
    rw [ih hff']
    cases p with
    | lit cs => rfl
    | field => exact absurd hff.1 (by decide)

/-- A URL with a field never formats to itself (brace counts differ). -/
theorem formatUrl_ne_renderUrl_of_field (u : Url) (idx : Nat) (hwf : urlWF u = true)
    (hf : fieldFree u = false) : formatUrl u idx ≠ renderUrl u := by
  intro heq
  have h1 := count_lbrace_formatUrl u idx hwf
  have h2 := count_lbrace_renderUrl u hwf
  rw [heq, h2] at h1
  have hmem : UrlPart.field ∈ u := by
    rw [fieldFree, Bool.not_eq_false'] at hf
    exact List.elem_iff.mp hf
  have : UrlPart.field ∈ u.filter (fun p => p == UrlPart.field) := by
    rw [List.mem_filter]
    exact ⟨hmem, by decide⟩
  have hlen : 0 < (u.filter (fun p => p == UrlPart.field)).length :=
    List.length_pos.mpr (List.ne_nil_of_mem this)
  omega

/-! ## Tile metadata and tiles (collaborators of `hips/tiles/fetch.py`)

`HipsTileMeta` and `HipsTile` live in the repository's `tiles` package, whose
file is not among the given sources; they are modelled from the spec's data
model: a meta is the immutable record `{order, ipix, file_format, frame,
width}` and a tile pairs a meta with its payload.  `fetch.py` constructs
metas without a `width`, `healpix.py` with one, so `width` is optional. -/

/-- Modelled from the spec: `HipsTileMeta`, the immutable tile-metadata value
object `{order, pixel index, file format, frame, width}` (spec section 3). -/
structure HipsTileMeta where
  order : Nat
  ipix : Nat
  file_format : String
  frame : String
  width : Option Nat := none
deriving DecidableEq

/-- Modelled from the spec: `HipsTile`, a tile metadata record together with
the tile's payload (raw downloaded bytes for the Fetcher, the extracted pixel
buffer for the Extractor); the payload type is a parameter. -/
structure HipsTile (β : Type) where
  meta : HipsTileMeta
  raw_data : β
deriving DecidableEq

/-- Modelled from the spec: the survey collaborator consumed by the Fetcher.
It exposes the sky frame and the URL builder `tile_url : meta → string`
(spec section 6, `url_for(tile_meta) -> string`); URLs are returned as
`Url` templates so that Python `str.format` semantics is available. -/
structure HipsSurveyProperties where
  astropy_frame : String
  tile_url : HipsTileMeta → Url

/-! ## The tile fetcher (`hips/tiles/fetch.py`, class `HipsTileFetcher`)

Network and scheduling are made explicit: `server` maps a requested URL
string to the fetched bytes or a failure (deterministic per URL, covering
network errors, timeouts and non-success responses), and `comp` lists the
task indices in the order in which the submitted fetches complete.  `tqdm`
is modelled as the identity on the iterated sequence: it renders a progress
count but yields the underlying items unchanged. -/

/-- Fetcher state, from `HipsTileFetcher.__init__` (fetch.py lines 32-39). -/
structure HipsTileFetcher where
  tile_indices : List Nat
  hips_order : Nat
  hips_survey : HipsSurveyProperties
  tile_format : String
  progress_bar : Bool
  thread_count : Nat := 10

/-- Modelled collaborator: `tqdm` wraps an iterator, rendering a progress bar
as a side effect while yielding the items unchanged and in order. -/
def tqdm (xs : List γ) : List γ := xs

/-- Tile metas built by both strategies, one per entry of `tile_indices` in
order (fetch.py lines 50-58 and 88-96). -/
def HipsTileFetcher.tile_metas (f : HipsTileFetcher) : List HipsTileMeta :=
  f.tile_indices.map fun healpix_pixel_index =>
    { order := f.hips_order
      ipix := healpix_pixel_index
      frame := f.hips_survey.astropy_frame
      file_format := f.tile_format }

/-- Tile URLs built by both strategies: the survey collaborator's URL for each
meta, in order (fetch.py lines 57 and 95). -/
def HipsTileFetcher.tile_urls (f : HipsTileFetcher) : List Url :=
  f.tile_metas.map f.hips_survey.tile_url

/-- One threaded fetch (fetch.py lines 41-44): open the URL and read the whole
body; `urllib.request.urlopen` + `read` are abstracted by `server`. -/
def fetch_tile_threaded (server : List Char → Except ε β) (url : List Char) :
    Except ε β :=
  server url

/-- Collection loop shared by both strategies: fetch the task with index `j`
for each `j` of the iteration order, appending results; the first raised
failure aborts the whole loop (fetch.py lines 69-71 and 104-110,
`future.result()` / `await` re-raise, nothing is caught). -/
def fetchSequence (g : Nat → Except ε β) : List Nat → Except ε (List β)
  | [] => .ok []
  | j :: rest =>
    match g j with
    | .error e => .error e
    | .ok r =>
      match fetchSequence g rest with
      | .error e => .error e
      | .ok rs => .ok (r :: rs)

/-- Thread-pool strategy `HipsTileFetcher.tiles` (fetch.py lines 46-76):
build metas and URLs, submit one fetch per URL to the pool, iterate
`as_completed` (optionally wrapped in `tqdm`) appending `future.result()` in
completion order, then pair `tile_metas[idx]` with `raw_responses[idx]`
positionally (lines 73-75).  `comp` is the completion order of the futures;
on a completion order that is a permutation of the task indices the final
`enumerate` pairing is the positional zip below. -/
def HipsTileFetcher.tiles (f : HipsTileFetcher) (server : List Char → Except ε β)
    (comp : List Nat) : Except ε (List (HipsTile β)) :=
  let tile_urls := f.tile_urls
  let requests := if f.progress_bar then tqdm comp else comp
  match fetchSequence
      (fun j => fetch_tile_threaded server (renderUrl (tile_urls.getD j []))) requests with
  | .error e => .error e
  | .ok raw_responses =>
      .ok (List.zipWith (fun m r => ⟨m, r⟩) f.tile_metas raw_responses)

/-- Cooperative strategy `HipsTileFetcher.fetch_tiles_aiohttp` (fetch.py lines
83-115): build metas and URLs, schedule one task per URL fetching
`url.format(idx)` (line 101); with a progress bar the results are awaited via
`asyncio.as_completed` in completion order (lines 104-108), otherwise via
`asyncio.gather` in task-submission order (line 110); then pair
`tile_metas[idx]` with `raw_responses[idx]` positionally (lines 112-114). -/
def HipsTileFetcher.fetch_tiles_aiohttp (f : HipsTileFetcher)
    (server : List Char → Except ε β) (comp : List Nat) :
    Except ε (List (HipsTile β)) :=
  let tile_urls := f.tile_urls
  let task := fun idx => server (formatUrl (tile_urls.getD idx []) idx)
  let fetched :=
    if f.progress_bar then fetchSequence task (tqdm comp)
    else fetchSequence task (List.range tile_urls.length)
  match fetched with
  | .error e => .error e
  | .ok raw_responses =>
      .ok (List.zipWith (fun m r => ⟨m, r⟩) f.tile_metas raw_responses)

/-- Public cooperative entry point `HipsTileFetcher.tiles_aiohttp` (fetch.py
lines 117-120): run `fetch_tiles_aiohttp` on the event loop to completion. -/
def HipsTileFetcher.tiles_aiohttp (f : HipsTileFetcher)
    (server : List Char → Except ε β) (comp : List Nat) :
    Except ε (List (HipsTile β)) :=
  f.fetch_tiles_aiohttp server comp

/-- URL strings the thread-pool strategy hands to `urlopen`: exactly the built
URLs, verbatim (fetch.py lines 62 and 43). -/
def HipsTileFetcher.requestedUrlsThreaded (f : HipsTileFetcher) : List (List Char) :=
  f.tile_urls.map renderUrl

/-- URL strings the cooperative strategy hands to `session.get`:
`url.format(idx)` for task index `idx` (fetch.py lines 100-101). -/
def HipsTileFetcher.requestedUrlsAiohttp (f : HipsTileFetcher) : List (List Char) :=
  f.tile_urls.enum.map fun p => formatUrl p.2 p.1

/-- Membership in the iteration order plus a failing fetch forces the whole
collection loop to fail. -/
theorem fetchSequence_error_of_mem {g : Nat → Except ε β} {l : List Nat} {j : Nat}
    (hj : j ∈ l) {e : ε} (he : g j = .error e) :
    ∃ e', fetchSequence g l = .error e' := by
  induction l with
  | nil => cases hj
  | cons a rest ih =>
    rw [List.mem_cons] at hj
    rcases hj with rfl | hj
    · exact ⟨e, by rw [fetchSequence, he]⟩
    · rcases h : g a with e'' | r
      · exact ⟨e'', by rw [fetchSequence, h]⟩
      · rcases ih hj with ⟨e', he'⟩
        exact ⟨e', by rw [fetchSequence, h, he']⟩

/-! ## Integer logarithm (kernel-computable)

`int(np.log2(n))` on positive integers is the floor base-2 logarithm; it is
defined here with structural (fuel) recursion so that concrete instances
evaluate inside the kernel. -/

/-- Fuel-driven floor base-2 logarithm. -/
def log2Aux : Nat → Nat → Nat
  | 0, _ => 0
  | fuel + 1, n => if 2 ≤ n then log2Aux fuel (n / 2) + 1 else 0

/-- Floor base-2 logarithm, modelling `int(np.log2(n))` for positive `n`. -/
def intLog2 (n : Nat) : Nat := log2Aux n n

theorem log2Aux_two_pow {fuel k : Nat} (h : 2 ^ k ≤ fuel) : log2Aux fuel (2 ^ k) = k := by
  induction fuel generalizing k with
  | zero =>
    have hpos : 0 < 2 ^ k := pow_pos (by omega) k
    omega
  | succ fuel ih =>
    cases k with
    | zero => rw [log2Aux, pow_zero, if_neg (by omega)]
    | succ k =>
      have h2 : 2 ≤ 2 ^ (k + 1) := by
        calc 2 = 2 ^ 1 := (pow_one 2).symm
        _ ≤ 2 ^ (k + 1) := Nat.pow_le_pow_right (by omega) (by omega)
      rw [log2Aux, if_pos h2, pow_succ, Nat.mul_div_cancel _ (by omega)]
      have hk : 2 ^ k ≤ fuel := by
        have : 2 ^ k < 2 ^ (k + 1) := Nat.pow_lt_pow_right (by omega) (by omega)
        omega
      rw [ih hk]

theorem intLog2_two_pow (k : Nat) : intLog2 (2 ^ k) = k :=
  log2Aux_two_pow le_rfl

/-- Floor square root by counting, modelling `sqrt` on exact squares and the
floor interpretation elsewhere (kernel-computable). -/
def intSqrt (n : Nat) : Nat :=
  ((List.range (n + 1)).filter fun s => s * s ≤ n).length - 1

/-! ## Nested-order index permutation within a tile

`hips_tile_healpix_ipix_array` lives in `hips/utils/healpix.py`, which is not
among the given sources; per the spec it returns, for a given `shift_order`,
a fixed `2^shift_order × 2^shift_order` array that maps every tile-local cell
position to a distinct nested-HEALPix pixel offset in `[0, tile_width^2)`.
The nested scheme within a tile is bit interleaving of the two cell
coordinates, defined here together with its inverse. -/

/-- Bit interleaving of two coordinates below `2 ^ s` into a nested-order
offset below `4 ^ s`. -/
def ipixInterleave : Nat → Nat → Nat → Nat
  | 0, _, _ => 0
  | s + 1, x, y => 4 * ipixInterleave s (x / 2) (y / 2) + 2 * (y % 2) + x % 2

/-- Inverse of `ipixInterleave`: recover the two coordinates from a
nested-order offset. -/
def ipixDeinterleave : Nat → Nat → Nat × Nat
  | 0, _ => (0, 0)
  | s + 1, p =>
    let q := ipixDeinterleave s (p / 4)
    (2 * q.1 + p % 4 % 2, 2 * q.2 + p % 4 / 2)

theorem ipixInterleave_lt {s x y : Nat} (hx : x < 2 ^ s) (hy : y < 2 ^ s) :
    ipixInterleave s x y < 4 ^ s := by
  induction s generalizing x y with
  | zero => rw [ipixInterleave]; omega
  | succ s ih =>
    rw [ipixInterleave]
    have hx' : x / 2 < 2 ^ s := by
      rw [pow_succ] at hx
      omega
    have hy' : y / 2 < 2 ^ s := by
      rw [pow_succ] at hy
      omega
    have h := ih hx' hy'
    rw [pow_succ]
    omega

theorem ipixDeinterleave_lt {s p : Nat} (hp : p < 4 ^ s) :
    (ipixDeinterleave s p).1 < 2 ^ s ∧ (ipixDeinterleave s p).2 < 2 ^ s := by
  induction s generalizing p with
  | zero => rw [ipixDeinterleave]; omega
  | succ s ih =>
    rw [ipixDeinterleave]
    have hp' : p / 4 < 4 ^ s := by
      rw [pow_succ] at hp
      omega
    have h := ih hp'
    rw [pow_succ]
    constructor <;> simp only <;> omega

theorem ipixInterleave_deinterleave {s p : Nat} (hp : p < 4 ^ s) :
    ipixInterleave s (ipixDeinterleave s p).1 (ipixDeinterleave s p).2 = p := by
  induction s generalizing p with
  | zero => rw [ipixDeinterleave, ipixInterleave]; omega
  | succ s ih =>
    have hp' : p / 4 < 4 ^ s := by
      rw [pow_succ] at hp
      omega
    rw [ipixDeinterleave, ipixInterleave]
    simp only
    have e1 : (2 * (ipixDeinterleave s (p / 4)).1 + p % 4 % 2) / 2
        = (ipixDeinterleave s (p / 4)).1 := by omega
    have e2 : (2 * (ipixDeinterleave s (p / 4)).2 + p % 4 / 2) / 2
        = (ipixDeinterleave s (p / 4)).2 := by omega
    have e3 : (2 * (ipixDeinterleave s (p / 4)).1 + p % 4 % 2) % 2 = p % 4 % 2 := by omega
    have e4 : (2 * (ipixDeinterleave s (p / 4)).2 + p % 4 / 2) % 2 = p % 4 / 2 := by omega
    rw [e1, e2, e3, e4, ih hp']
    omega

/-- Modelled from the spec: `hips_tile_healpix_ipix_array(shift_order)` from
`hips/utils/healpix.py` (not among the given sources).  Per the spec it is the
fixed permutation array, depending only on `shift_order`, that maps each
tile-local cell position `(row, col)` of the `2^shift_order × 2^shift_order`
tile to a nested-HEALPix pixel offset within a tile block; nested ordering
within a tile is bit interleaving of the cell coordinates. -/
def hips_tile_healpix_ipix_array (shift_order : Nat) : Nat → Nat → Nat :=
  fun r c => ipixInterleave shift_order r c

/-! ## Tile extraction (`hips/draw/healpix.py`, `healpix_to_hips_tile`)

The pixel gather `hpx_data[ipix]` / `hpx_data[ipix, :]` (healpix.py lines 54,
61, 68) is the element type's only point of difference between the three
formats: a `fits` pixel is a scalar, a `jpg`/`png` pixel is its row of
channel values.  The gather, the 90° rotation and the buffer construction
are therefore defined once, polymorphically in the pixel type `π`. -/

/-- Gather of one tile's pixels: entry `(r, c)` of the result is
`pix[off + ipix r c]`; as in numpy fancy indexing the whole gather raises
(returns `none`) when any index is out of bounds (healpix.py lines 44-45 and
54/61/68). -/
def gatherTile [Inhabited π] (pix : List π) (off n : Nat) (ipix : Nat → Nat → Nat) :
    Option (List (List π)) :=
  if ∀ r < n, ∀ c < n, off + ipix r c < pix.length then
    some ((List.range n).map fun r =>
      (List.range n).map fun c => pix.getD (off + ipix r c) default)
  else none

/-- Counterclockwise 90° rotation of an `n × n` matrix, as `np.rot90`
(healpix.py line 74): entry `(i, j)` of the result is entry `(j, n-1-i)` of
the argument.  The subsequent `.copy()` has no observable effect here. -/
def rot90 [Inhabited π] (n : Nat) (m : List (List π)) : List (List π) :=
  (List.range n).map fun i =>
    (List.range n).map fun j => (m.getD j []).getD (n - 1 - i) default

/-- Tile buffer computed by `healpix_to_hips_tile` (healpix.py lines 41-45,
54/61/68 and 74): nested-permutation gather at offset
`tile_idx * tile_width ** 2`, then `np.rot90`. -/
def extractTileBuffer [Inhabited π] (pix : List π) (tile_width tile_idx : Nat) :
    Option (List (List π)) :=
  let shift_order := intLog2 tile_width
  let offset_ipix := tile_idx * tile_width ^ 2
  (gatherTile pix offset_ipix (2 ^ shift_order)
    (hips_tile_healpix_ipix_array shift_order)).map (rot90 (2 ^ shift_order))

/-- Inverse of `rot90` on an `n × n` matrix: entry `(r, c)` of the result is
entry `(n-1-c, r)` of the argument. -/
def unrot90 [Inhabited π] (n : Nat) (m : List (List π)) : List (List π) :=
  (List.range n).map fun r =>
    (List.range n).map fun c => (m.getD (n - 1 - c) []).getD r default

/-- Scatter of an un-rotated tile grid back through the nested-order index
permutation: position `p` of the result is the grid entry whose
nested-HEALPix offset is `p`. -/
def scatterNested [Inhabited π] (shift_order : Nat) (g : List (List π)) : List π :=
  (List.range (4 ^ shift_order)).map fun p =>
    (g.getD (ipixDeinterleave shift_order p).1 []).getD
      (ipixDeinterleave shift_order p).2 default

/-! ## Input arrays, error taxonomy and the full extractor -/

/-- Input `hpx_data` array.  The extractor reads only the rank (`ndim`), the
trailing dimension of rank-2 input, and — treating a rank-2 row of channel
values as one pixel — the sequence of pixels.  `nd1` encodes rank-1 arrays
(one scalar per pixel), `nd2 chans rows` rank-2 arrays of shape
`(len rows, chans)`, and `ndOther shape` arrays of any other rank (their data
is never reached: every format branch rejects them). -/
inductive NpArray (α : Type) where
  | nd1 (data : List α)
  | nd2 (chans : Nat) (rows : List (List α))
  | ndOther (shape : List Nat)
deriving DecidableEq

/-- Rank of the array (`hpx_data.ndim`). -/
def NpArray.ndim : NpArray α → Nat
  | .nd1 _ => 1
  | .nd2 _ _ => 2
  | .ndOther shape => shape.length

/-- Leading dimension (`hpx_data.shape[0]`, healpix.py line 76). -/
def NpArray.shape0 : NpArray α → Nat
  | .nd1 data => data.length
  | .nd2 _ rows => rows.length
  | .ndOther shape => shape.headD 0

/-- Trailing dimension of rank-2 input (`hpx_data.shape[1]`). -/
def NpArray.shape1 : NpArray α → Nat
  | .nd1 _ => 0
  | .nd2 chans _ => chans
  | .ndOther shape => shape.getD 1 0

/-- Faithful-encoding condition: `ndOther` is only used for ranks other than
1 and 2, and rank-2 rows all have the declared trailing dimension. -/
def NpArray.wf : NpArray α → Prop
  | .nd1 _ => True
  | .nd2 chans rows => ∀ row ∈ rows, row.length = chans
  | .ndOther shape => shape.length ≠ 1 ∧ shape.length ≠ 2

/-- Error taxonomy of the extractor, after the spec's section 7.  The three
`ValueError`s raised in healpix.py lines 50-70 split into shape errors
(recording the offending rank and trailing dimension) and the
unsupported-format error; `indexError` is numpy's out-of-bounds gather
failure, `npixError` the `ValueError` of the collaborator `npix2nside` on an
invalid pixel count. -/
inductive HipsError where
  | shapeError (ndim : Nat) (shape1 : Nat)
  | unsupportedFormatError (file_format : String)
  | indexError
  | npixError
deriving DecidableEq

/-- Extracted tile buffer: a `width × width` grid of scalars for `fits`
(rank-1 input) or of channel rows for `jpg`/`png` (rank-2 input). -/
inductive TileData (α : Type) where
  | grid1 (g : List (List α))
  | grid2 (g : List (List (List α)))
deriving DecidableEq

/-- External collaborator `hp.npix2nside` applied to the exact ratio
`npix / w2` (healpix.py line 77; the Python division is float division, so
the composite succeeds exactly when `npix = 12 * nside^2 * w2` for some
`nside`, which is unique whenever it exists and `npix > 0`). -/
def npix2nside_ratio (npix w2 : Nat) : Option Nat :=
  (List.range (npix + 1)).find? fun nside => 12 * nside ^ 2 * w2 == npix

/-- Modelled collaborator `HipsTile.from_numpy` (healpix.py line 88): wrap the
extracted buffer and its meta as a tile; image encoding is an external codec
(a spec non-goal), so the tile keeps the buffer itself as payload. -/
def HipsTile.from_numpy (meta : HipsTileMeta) (data : β) : HipsTile β :=
  ⟨meta, data⟩

/-- Format dispatch, shape validation and pixel gather of the extractor
(healpix.py lines 47-74): `fits` requires rank-1 input, `jpg` rank-2 with
trailing dimension 3, `png` rank-2 with trailing dimension 4; any other
format string is rejected. -/
def extractData [Inhabited α] (hpx_data : NpArray α) (tile_width tile_idx : Nat)
    (file_format : String) : Except HipsError (TileData α) :=
  if file_format = "fits" then
    match hpx_data with
    | .nd1 d =>
      match extractTileBuffer d tile_width tile_idx with
      | some g => Except.ok (TileData.grid1 g)
      | none => Except.error HipsError.indexError
    | _ => Except.error (HipsError.shapeError hpx_data.ndim hpx_data.shape1)
  else if file_format = "jpg" then
    match hpx_data with
    | .nd2 chans rows =>
      if chans = 3 then
        match extractTileBuffer rows tile_width tile_idx with
        | some g => Except.ok (TileData.grid2 g)
        | none => Except.error HipsError.indexError
      else Except.error (HipsError.shapeError 2 chans)
    | _ => Except.error (HipsError.shapeError hpx_data.ndim hpx_data.shape1)
  else if file_format = "png" then
    match hpx_data with
    | .nd2 chans rows =>
      if chans = 4 then
        match extractTileBuffer rows tile_width tile_idx with
        | some g => Except.ok (TileData.grid2 g)
        | none => Except.error HipsError.indexError
      else Except.error (HipsError.shapeError 2 chans)
    | _ => Except.error (HipsError.shapeError hpx_data.ndim hpx_data.shape1)
  else
    Except.error (HipsError.unsupportedFormatError file_format)

/-- Source-order derivation of the extractor (healpix.py lines 76-78):
`nside = npix2nside(npix / tile_width ** 2)`, `order = int(log2(nside))`. -/
def sourceOrder (hpx_npix w2 : Nat) : Except HipsError Nat :=
  match npix2nside_ratio hpx_npix w2 with
  | some nside => Except.ok (intLog2 nside)
  | none => Except.error HipsError.npixError

/-- Extractor `healpix_to_hips_tile` (healpix.py lines 14-88): validate the
input shape for the requested format, gather the tile's pixels through the
nested-order index permutation at offset `tile_idx * tile_width ** 2`, rotate
90°, derive the source HEALPix order from the array length, and return the
tile. -/
def healpix_to_hips_tile [Inhabited α] (hpx_data : NpArray α)
    (tile_width tile_idx : Nat) (file_format : String) (frame : String) :
    Except HipsError (HipsTile (TileData α)) := do
  let data ← extractData hpx_data tile_width tile_idx file_format
  let hpx_order ← sourceOrder hpx_data.shape0 (tile_width ^ 2)
  let meta : HipsTileMeta :=
    { order := hpx_order
      ipix := tile_idx
      file_format := file_format
      frame := frame
      width := some tile_width }
  return HipsTile.from_numpy meta data

/-! ## The converter (`hips/draw/healpix.py`, `healpix_to_hips`)

Disk writes are recorded as an event trace; the run additionally reports the
first extractor failure, which aborts the remaining loop. -/

/-- Survey descriptor written by the converter (healpix.py lines 121-127):
the key-value mapping recorded in `base_path/properties`.  The collaborator
`HipsSurveyProperties(...)` /`.write` is modelled from the spec (section 4.2:
one descriptor recording `{file_format, tile_width, frame}`). -/
structure SurveyPropsRecord where
  hips_tile_format : String
  hips_tile_width : Nat
  hips_frame : String
deriving DecidableEq

/-- Modelled from the spec: `HipsTileMeta.tile_default_path`, the tile's
canonical relative storage path (spec section 6: determined by the tile
metadata, directory-bucketed by order and pixel-index range), as a list of
path segments. -/
def tile_default_path (meta : HipsTileMeta) : List String :=
  ["Norder" ++ Nat.repr meta.order,
   "Dir" ++ Nat.repr (meta.ipix / 10000 * 10000),
   "Npix" ++ Nat.repr meta.ipix ++ "." ++ meta.file_format]

/-- Filesystem side effect of one converter step. -/
inductive FsEvent (α : Type) where
  | mkdir (path : List String)
  | writeProperties (props : SurveyPropsRecord) (path : List String)
  | writeTile (tile : HipsTile (TileData α)) (path : List String)
deriving DecidableEq

/-- Tile loop of the converter (healpix.py lines 131-143): for each tile
index in turn, extract the tile, create its parent directory and write it;
an extractor failure propagates immediately, aborting the remaining loop. -/
def hipsWriteLoop [Inhabited α] (hpx_data : NpArray α) (tile_width : Nat)
    (base_path : List String) (file_format frame : String) :
    List Nat → List (FsEvent α) × Option HipsError
  | [] => ([], none)
  | tile_idx :: rest =>
    match healpix_to_hips_tile hpx_data tile_width tile_idx file_format frame with
    | .error e => ([], some e)
    | .ok tile =>
      let path := base_path ++ tile_default_path tile.meta
      let r := hipsWriteLoop hpx_data tile_width base_path file_format frame rest
      (FsEvent.mkdir path.dropLast :: FsEvent.writeTile tile path :: r.1, r.2)

/-- Converter `healpix_to_hips` (healpix.py lines 91-143): create the base
directory, write the survey-properties descriptor to `base_path/properties`,
compute `n_tiles = hpx_data.shape[0] // tile_width ** 2` and write the tiles
for indices `0, 1, …, n_tiles - 1` in turn.  The result is the ordered trace
of filesystem events together with the first extractor failure, if any. -/
def healpix_to_hips [Inhabited α] (hpx_data : NpArray α) (tile_width : Nat)
    (base_path : List String) (file_format frame : String) :
    List (FsEvent α) × Option HipsError :=
  let props : SurveyPropsRecord :=
    { hips_tile_format := file_format
      hips_tile_width := tile_width
      hips_frame := frame }
  let n_tiles := hpx_data.shape0 / tile_width ^ 2
  let r :=
    hipsWriteLoop hpx_data tile_width base_path file_format frame
      (List.range n_tiles)
  (FsEvent.mkdir base_path
     :: FsEvent.writeProperties props (base_path ++ ["properties"])
     :: r.1,
   r.2)

/-! ## Generic list helpers -/

theorem getD_range_map {β : Type} {n i : Nat} (f : Nat → β) (d : β) (h : i < n) :
    ((List.range n).map f).getD i d = f i := by
  rw [List.getD_eq_getElem?_getD, List.getElem?_map, List.getElem?_range h]
  rfl

theorem find?_range_eq_some {p : Nat → Bool} {n a : Nat} (ha : a < n)
    (hpa : p a = true) (huniq : ∀ j, p j = true → j = a) :
    (List.range n).find? p = some a := by
  have hs : ((List.range n).find? p).isSome :=
    List.find?_isSome.mpr ⟨a, List.mem_range.mpr ha, hpa⟩
  obtain ⟨b, hb⟩ := Option.isSome_iff_exists.mp hs
  rw [hb, huniq b (List.find?_some hb)]

/-! ## A concrete two-tile fetch scenario

Tile indices `[0, 1]`, a URL builder producing the brace-free URL `u<ipix>`
for each meta, and a deterministic server answering `"A"` on `u0` and `"B"`
on `u1`.  With completion order `[1, 0]` (the second submitted fetch
completes first) the thread-pool strategy mispairs metas and payloads. -/

/-- Survey collaborator of the concrete scenario: frame `icrs`, URL `u<ipix>`. -/
def swapSurvey : HipsSurveyProperties :=
  { astropy_frame := "icrs"
    tile_url := fun meta => [UrlPart.lit ('u' :: natDigits meta.ipix)] }

/-- Fetcher of the concrete scenario: two tiles, no progress bar. -/
def swapFetcher : HipsTileFetcher :=
  { tile_indices := [0, 1]
    hips_order := 7
    hips_survey := swapSurvey
    tile_format := "fits"
    progress_bar := false
    thread_count := 2 }

/-- Deterministic server of the concrete scenario. -/
def swapServer : List Char → Except Unit String := fun url =>
  if url = ['u', '0'] then Except.ok "A"
  else if url = ['u', '1'] then Except.ok "B"
  else Except.error ()

/-- Meta built by the fetcher for tile index `i` in the concrete scenario. -/
def swapMeta (i : Nat) : HipsTileMeta :=
  { order := 7, ipix := i, file_format := "fits", frame := "icrs" }

/-- Server of the failing-fetch scenario: the URL `u1` fails (connection
error), `u0` succeeds. -/
def failServer : List Char → Except Unit String := fun url =>
  if url = ['u', '0'] then Except.ok "A"
  else Except.error ()

/-- C1: the claim says the thread-pool strategy `tiles` pairs the tile at
position `k` with the payload fetched from the URL of `tile_indices[k]`'s
meta, regardless of completion order.  The code appends `future.result()` in
completion order and then zips positionally, so with completion order
`[1, 0]` position 0 carries meta `ipix = 0` together with payload `"B"`,
which was fetched from the *other* meta's URL (`u1`), while `u0` serves
`"A"`. -/
theorem C1_threaded_pairs_by_completion_order :
    swapFetcher.tiles swapServer [1, 0]
      = Except.ok [⟨swapMeta 0, "B"⟩, ⟨swapMeta 1, "A"⟩]
    ∧ swapServer (renderUrl (swapFetcher.hips_survey.tile_url (swapMeta 0)))
      = Except.ok "A"
    ∧ ("B" : String) ≠ "A" := by
  refine ⟨by decide, by decide, by decide⟩

/-- C2: the claim says the two strategies return the same set of tiles for
the same inputs and a deterministic server.  With completion order `[1, 0]`
the thread-pool strategy returns `{(meta 0, B), (meta 1, A)}` while the
cooperative strategy returns `{(meta 0, A), (meta 1, B)}`; the two result
lists are not even permutations of one another. -/
theorem C2_strategies_disagree_on_swapped_completion :
    swapFetcher.tiles swapServer [1, 0]
      = Except.ok [⟨swapMeta 0, "B"⟩, ⟨swapMeta 1, "A"⟩]
    ∧ swapFetcher.tiles_aiohttp swapServer [1, 0]
      = Except.ok [⟨swapMeta 0, "A"⟩, ⟨swapMeta 1, "B"⟩]
    ∧ ¬ List.Perm
        ([⟨swapMeta 0, "B"⟩, ⟨swapMeta 1, "A"⟩] : List (HipsTile String))
        [⟨swapMeta 0, "A"⟩, ⟨swapMeta 1, "B"⟩] := by
  refine ⟨by decide, by decide, by decide⟩

/-- C3: the claim says the progress bar alters neither ordering nor results
for either strategy.  For the cooperative strategy, `progress_bar=True`
collects `asyncio.as_completed` results in completion order while
`progress_bar=False` uses `asyncio.gather` in submission order, so with
completion order `[1, 0]` and all else fixed the two runs return different
tile lists. -/
theorem C3_progress_bar_alters_aiohttp_result :
    ({ swapFetcher with progress_bar := true }).tiles_aiohttp swapServer [1, 0]
      = Except.ok [⟨swapMeta 0, "B"⟩, ⟨swapMeta 1, "A"⟩]
    ∧ ({ swapFetcher with progress_bar := false }).tiles_aiohttp swapServer [1, 0]
      = Except.ok [⟨swapMeta 0, "A"⟩, ⟨swapMeta 1, "B"⟩]
    ∧ ({ swapFetcher with progress_bar := true }).tiles_aiohttp swapServer [1, 0]
      ≠ ({ swapFetcher with progress_bar := false }).tiles_aiohttp swapServer [1, 0] := by
  refine ⟨by decide, by decide, by decide⟩

/-- C4: if the server fails on any requested URL (network error, timeout or
non-success response alike), each strategy propagates the failure and the
whole batch call returns an error — no tile list is produced. -/
theorem C4_single_failure_fails_whole_batch {ε β : Type} (f : HipsTileFetcher)
    (server : List Char → Except ε β) (comp : List Nat)
    (hperm : comp.Perm (List.range f.tile_indices.length)) :
    (∀ j e, j < f.tile_indices.length →
        server (renderUrl (f.tile_urls.getD j [])) = Except.error e →
        ∃ e', f.tiles server comp = Except.error e') ∧
    (∀ j e, j < f.tile_indices.length →
        server (formatUrl (f.tile_urls.getD j []) j) = Except.error e →
        ∃ e', f.tiles_aiohttp server comp = Except.error e') := by
  have hlen : f.tile_urls.length = f.tile_indices.length := by
    simp [HipsTileFetcher.tile_urls, HipsTileFetcher.tile_metas]
  constructor
  · intro j e hj he
    have hmem : j ∈ comp := hperm.mem_iff.mpr (List.mem_range.mpr hj)
    obtain ⟨e', he'⟩ := fetchSequence_error_of_mem
      (g := fun i => fetch_tile_threaded server (renderUrl (f.tile_urls.getD i [])))
      hmem he
    refine ⟨e', ?_⟩
    rw [HipsTileFetcher.tiles]
    cases hpb : f.progress_bar <;> simp only [Bool.false_eq_true, if_true, if_false, tqdm] <;>
      rw [he']
  · intro j e hj he
    refine ?_
    rw [HipsTileFetcher.tiles_aiohttp, HipsTileFetcher.fetch_tiles_aiohttp]
    cases hpb : f.progress_bar
    · have hmem : j ∈ List.range f.tile_urls.length := by
        rw [hlen]
        exact List.mem_range.mpr hj
      obtain ⟨e', he'⟩ := fetchSequence_error_of_mem
        (g := fun i => server (formatUrl (f.tile_urls.getD i []) i)) hmem he
      refine ⟨e', ?_⟩
      simp only [Bool.false_eq_true, if_false, tqdm]
      rw [he']
    · have hmem : j ∈ comp := hperm.mem_iff.mpr (List.mem_range.mpr hj)
      obtain ⟨e', he'⟩ := fetchSequence_error_of_mem
        (g := fun i => server (formatUrl (f.tile_urls.getD i []) i)) hmem he
      refine ⟨e', ?_⟩
      simp only [if_true, tqdm]
      rw [he']

/-- Witness for C4 at the concrete failing scenario: the second tile's URL
fails, and both strategies fail the whole batch. -/
theorem C4_single_failure_fails_whole_batch_witness :
    (∃ e', swapFetcher.tiles failServer [1, 0] = Except.error e') ∧
    (∃ e', swapFetcher.tiles_aiohttp failServer [1, 0] = Except.error e') :=
  ⟨(C4_single_failure_fails_whole_batch swapFetcher failServer [1, 0] (by decide)).1
      1 () (by decide) (by decide),
   (C4_single_failure_fails_whole_batch swapFetcher failServer [1, 0] (by decide)).2
      1 () (by decide) (by decide)⟩

/-- C10: the thread-pool strategy requests exactly the built URL strings,
the cooperative strategy requests `url.format(idx)`; for well-formed URL
strings the two request lists coincide exactly when no built URL contains a
replacement field, and a URL containing a field is rewritten (per task
index) by the cooperative variant only. -/
theorem C10_cooperative_reformats_urls (f : HipsTileFetcher)
    (hwf : ∀ u ∈ f.tile_urls, urlWF u = true) :
    f.requestedUrlsThreaded = f.tile_urls.map renderUrl ∧
    f.requestedUrlsAiohttp = f.tile_urls.enum.map (fun p => formatUrl p.2 p.1) ∧
    (f.requestedUrlsAiohttp = f.requestedUrlsThreaded ↔
      ∀ u ∈ f.tile_urls, fieldFree u = true) := by
  refine ⟨rfl, rfl, ?_⟩
  constructor
  · intro heq u hu
    obtain ⟨k, hk, hke⟩ := List.getElem_of_mem hu
    have hpt := congrArg (fun l => l[k]?) heq
    simp only [HipsTileFetcher.requestedUrlsAiohttp, HipsTileFetcher.requestedUrlsThreaded,
      List.getElem?_map, List.getElem?_enum, List.getElem?_eq_getElem hk,
      Option.map_map, Option.map_some', Function.comp_def, hke] at hpt
    by_contra hff
    exact formatUrl_ne_renderUrl_of_field u k (hwf u hu)
      (Bool.not_eq_true _ ▸ hff) (Option.some_injective _ hpt)
  · intro hff
    apply List.ext_getElem?
    intro i
    simp only [HipsTileFetcher.requestedUrlsAiohttp, HipsTileFetcher.requestedUrlsThreaded,
      List.getElem?_map, List.getElem?_enum, Option.map_map]
    cases hgi : f.tile_urls[i]? with
    | none => rfl
    | some u =>
      have hu : u ∈ f.tile_urls := List.getElem?_mem hgi
      simp only [Option.map_some', Function.comp]
      rw [formatUrl_eq_renderUrl_of_fieldFree u i (hff u hu)]

/-- Witness for C10 at a concrete fetcher whose single built URL contains a
replacement field: the request lists differ and the iff instantiates. -/
theorem C10_cooperative_reformats_urls_witness :
    ({ tile_indices := [3], hips_order := 7,
       hips_survey := { astropy_frame := "icrs",
                        tile_url := fun _ => [UrlPart.lit ['t'], UrlPart.field] },
       tile_format := "fits", progress_bar := false } : HipsTileFetcher).requestedUrlsAiohttp
      = ({ tile_indices := [3], hips_order := 7,
           hips_survey := { astropy_frame := "icrs",
                            tile_url := fun _ => [UrlPart.lit ['t'], UrlPart.field] },
           tile_format := "fits", progress_bar := false } : HipsTileFetcher).requestedUrlsThreaded
      ↔ ∀ u ∈ ({ tile_indices := [3], hips_order := 7,
                 hips_survey := { astropy_frame := "icrs",
                                  tile_url := fun _ => [UrlPart.lit ['t'], UrlPart.field] },
                 tile_format := "fits", progress_bar := false } : HipsTileFetcher).tile_urls,
            fieldFree u = true :=
  (C10_cooperative_reformats_urls _ (by decide)).2.2

/-! ## Claims about the extractor's validation -/

/-- Result classifier: did the call fail with a shape error? -/
def isShapeError : Except HipsError γ → Bool
  | .error (HipsError.shapeError _ _) => true
  | _ => false

/-- Validation failures abort the extractor before any further step. -/
theorem healpix_to_hips_tile_error {α : Type} [Inhabited α] {hpx : NpArray α}
    {w i : Nat} {ff fr : String} {e : HipsError}
    (h : extractData hpx w i ff = Except.error e) :
    healpix_to_hips_tile hpx w i ff fr = Except.error e := by
  rw [healpix_to_hips_tile, h]
  rfl

theorem extractData_jpg_nd2_bad {α : Type} [Inhabited α] {chans : Nat}
    {rows : List (List α)} {w i : Nat} (hc : chans ≠ 3) :
    extractData (NpArray.nd2 chans rows) w i "jpg"
      = Except.error (HipsError.shapeError 2 chans) := by
  rw [extractData, if_neg (by decide : ¬ ("jpg" : String) = "fits"), if_pos rfl]
  exact if_neg hc

theorem extractData_png_nd2_bad {α : Type} [Inhabited α] {chans : Nat}
    {rows : List (List α)} {w i : Nat} (hc : chans ≠ 4) :
    extractData (NpArray.nd2 chans rows) w i "png"
      = Except.error (HipsError.shapeError 2 chans) := by
  rw [extractData, if_neg (by decide : ¬ ("png" : String) = "fits"),
    if_neg (by decide : ¬ ("png" : String) = "jpg"), if_pos rfl]
  exact if_neg hc

theorem extractData_unknown_format {α : Type} [Inhabited α] (hpx : NpArray α)
    {w i : Nat} {ff : String} (h1 : ff ≠ "fits") (h2 : ff ≠ "jpg")
    (h3 : ff ≠ "png") :
    extractData hpx w i ff = Except.error (HipsError.unsupportedFormatError ff) := by
  cases hpx with
  | nd1 d => rw [extractData, if_neg h1, if_neg h2, if_neg h3]
  | nd2 chans rows => rw [extractData, if_neg h1, if_neg h2, if_neg h3]
  | ndOther shape =>
    rw [extractData, if_neg h1, if_neg h2, if_neg h3]
    · exact fun d h => NpArray.noConfusion h
    · exact fun chans rows h => NpArray.noConfusion h

/-- C5: the extractor fails with a `ShapeError` whenever the format is `fits`
and the input is not rank-1, `jpg` and the input is not rank-2 with trailing
dimension 3, or `png` and the input is not rank-2 with trailing dimension 4;
and it fails with an `UnsupportedFormatError` whenever the format is none of
`fits`, `jpg`, `png` — in all such cases. -/
theorem C5_extractor_rejects_bad_shape_and_format {α : Type} [Inhabited α]
    (hpx : NpArray α) (tile_width tile_idx : Nat) (file_format frame : String)
    (hwf : hpx.wf) :
    (file_format = "fits" → hpx.ndim ≠ 1 →
      isShapeError (healpix_to_hips_tile hpx tile_width tile_idx file_format frame)
        = true) ∧
    (file_format = "jpg" → ¬ (hpx.ndim = 2 ∧ hpx.shape1 = 3) →
      isShapeError (healpix_to_hips_tile hpx tile_width tile_idx file_format frame)
        = true) ∧
    (file_format = "png" → ¬ (hpx.ndim = 2 ∧ hpx.shape1 = 4) →
      isShapeError (healpix_to_hips_tile hpx tile_width tile_idx file_format frame)
        = true) ∧
    (file_format ≠ "fits" → file_format ≠ "jpg" → file_format ≠ "png" →
      healpix_to_hips_tile hpx tile_width tile_idx file_format frame
        = Except.error (HipsError.unsupportedFormatError file_format)) := by
  refine ⟨?_, ?_, ?_, ?_⟩
  · intro hf hnd
    subst hf
    cases hpx with
    | nd1 d => exact absurd rfl hnd
    | nd2 chans rows =>
      have hE : extractData (NpArray.nd2 chans rows) tile_width tile_idx "fits"
          = Except.error (HipsError.shapeError 2 chans) := rfl
      rw [healpix_to_hips_tile_error hE]
      rfl
    | ndOther shape =>
      have hE : extractData (NpArray.ndOther (α := α) shape) tile_width tile_idx "fits"
          = Except.error (HipsError.shapeError shape.length (shape.getD 1 0)) := rfl
      rw [healpix_to_hips_tile_error hE]
      rfl
  · intro hf hsh
    subst hf
    cases hpx with
    | nd1 d =>
      have hE : extractData (NpArray.nd1 d) tile_width tile_idx "jpg"
          = Except.error (HipsError.shapeError 1 0) := rfl
      rw [healpix_to_hips_tile_error hE]
      rfl
    | nd2 chans rows =>
      have hc : chans ≠ 3 := fun hc => hsh ⟨rfl, hc⟩
      rw [healpix_to_hips_tile_error (extractData_jpg_nd2_bad hc)]
      rfl
    | ndOther shape =>
      have hE : extractData (NpArray.ndOther (α := α) shape) tile_width tile_idx "jpg"
          = Except.error (HipsError.shapeError shape.length (shape.getD 1 0)) := rfl
      rw [healpix_to_hips_tile_error hE]
      rfl
  · intro hf hsh
    subst hf
    cases hpx with
    | nd1 d =>
      have hE : extractData (NpArray.nd1 d) tile_width tile_idx "png"
          = Except.error (HipsError.shapeError 1 0) := rfl
      rw [healpix_to_hips_tile_error hE]
      rfl
    | nd2 chans rows =>
      have hc : chans ≠ 4 := fun hc => hsh ⟨rfl, hc⟩
      rw [healpix_to_hips_tile_error (extractData_png_nd2_bad hc)]
      rfl
    | ndOther shape =>
      have hE : extractData (NpArray.ndOther (α := α) shape) tile_width tile_idx "png"
          = Except.error (HipsError.shapeError shape.length (shape.getD 1 0)) := rfl
      rw [healpix_to_hips_tile_error hE]
      rfl
  · intro h1 h2 h3
    exact healpix_to_hips_tile_error (extractData_unknown_format hpx h1 h2 h3)

/-- Witness for C5: all four failure modes observed on concrete inputs. -/
theorem C5_extractor_rejects_bad_shape_and_format_witness :
    isShapeError (healpix_to_hips_tile (NpArray.nd2 3 [[0, 0, 0]]) 1 0 "fits" "icrs")
      = true ∧
    isShapeError (healpix_to_hips_tile (NpArray.nd1 ([0] : List Nat)) 1 0 "jpg" "icrs")
      = true ∧
    isShapeError (healpix_to_hips_tile (NpArray.nd1 ([0] : List Nat)) 1 0 "png" "icrs")
      = true ∧
    healpix_to_hips_tile (NpArray.nd1 ([0] : List Nat)) 1 0 "tiff" "icrs"
      = Except.error (HipsError.unsupportedFormatError "tiff") :=
  ⟨(C5_extractor_rejects_bad_shape_and_format (NpArray.nd2 3 [[0, 0, 0]]) 1 0 "fits"
      "icrs" (by intro row hrow; simp at hrow; rw [hrow]; rfl)).1 rfl (by decide),
   (C5_extractor_rejects_bad_shape_and_format (NpArray.nd1 ([0] : List Nat)) 1 0 "jpg"
      "icrs" trivial).2.1 rfl (by decide),
   (C5_extractor_rejects_bad_shape_and_format (NpArray.nd1 ([0] : List Nat)) 1 0 "png"
      "icrs" trivial).2.2.1 rfl (by decide),
   (C5_extractor_rejects_bad_shape_and_format (NpArray.nd1 ([0] : List Nat)) 1 0 "tiff"
      "icrs" trivial).2.2.2 (by decide) (by decide) (by decide)⟩

/-! ## Claim C9: the gather indices stay in bounds -/

/-- C9: if the index-permutation array only produces offsets below
`tile_width ^ 2`, the input length is a multiple `m` of `tile_width ^ 2` and
the tile index is below `m`, then every absolute gather index
`tile_idx * tile_width ^ 2 + ipix r c` is strictly below the input length
and the gather step is total. -/
theorem C9_gather_indices_in_bounds {π : Type} [Inhabited π] (pix : List π)
    (w tidx m : Nat) (ipix : Nat → Nat → Nat)
    (hperm : ∀ r < w, ∀ c < w, ipix r c < w ^ 2)
    (hlen : pix.length = m * w ^ 2) (ht : tidx < m) :
    (∀ r < w, ∀ c < w, tidx * w ^ 2 + ipix r c < pix.length) ∧
    (gatherTile pix (tidx * w ^ 2) w ipix).isSome = true := by
  have hb : ∀ r < w, ∀ c < w, tidx * w ^ 2 + ipix r c < pix.length := by
    intro r hr c hc
    have hb := hperm r hr c hc
    have hmul : (tidx + 1) * w ^ 2 ≤ m * w ^ 2 :=
      Nat.mul_le_mul_right _ (by omega)
    rw [Nat.succ_mul] at hmul
    omega
  refine ⟨hb, ?_⟩
  rw [gatherTile, if_pos hb]
  rfl

/-- Witness for C9 at `w = 2`, the modelled index-permutation array, eight
pixels and tile index 1. -/
theorem C9_gather_indices_in_bounds_witness :
    (∀ r < 2, ∀ c < 2, 1 * 2 ^ 2 + hips_tile_healpix_ipix_array 1 r c
      < (List.range 8).length) ∧
    (gatherTile (List.range 8) (1 * 2 ^ 2) 2 (hips_tile_healpix_ipix_array 1)).isSome
      = true :=
  C9_gather_indices_in_bounds (List.range 8) 2 1 2 (hips_tile_healpix_ipix_array 1)
    (by decide) (by decide) (by decide)

/-! ## Claim C7: how the source order is derived -/

theorem sourceOrder_some {npix w2 ns : Nat}
    (h : npix2nside_ratio npix w2 = some ns) :
    sourceOrder npix w2 = Except.ok (intLog2 ns) := by
  unfold sourceOrder
  rw [h]

/-- The composite `npix2nside(npix / w2)` recovers `nside` exactly on valid
pixel counts `npix = 12 * nside^2 * w2`. -/
theorem npix2nside_ratio_exact {nside w2 : Nat} (hw2 : 0 < w2) :
    npix2nside_ratio (12 * nside ^ 2 * w2) w2 = some nside := by
  rw [npix2nside_ratio]
  apply find?_range_eq_some
  · have h1 : nside ≤ 12 * nside ^ 2 * w2 := by
      rcases Nat.eq_zero_or_pos nside with h | h
      · simp [h]
      · calc nside ≤ nside * nside := Nat.le_mul_of_pos_left _ h
          _ ≤ 12 * (nside * nside) := Nat.le_mul_of_pos_left _ (by omega)
          _ = 12 * nside ^ 2 := by ring
          _ ≤ 12 * nside ^ 2 * w2 := Nat.le_mul_of_pos_right _ hw2
    omega
  · simp
  · intro j hj
    have hj' : 12 * j ^ 2 * w2 = 12 * nside ^ 2 * w2 := beq_iff_eq.mp hj
    have hsq : j ^ 2 = nside ^ 2 := by
      have h12 := Nat.eq_of_mul_eq_mul_right hw2 hj'
      omega
    exact Nat.pow_left_injective (by omega) hsq

/-- A successful extraction determines the tile's meta: the order is
`int(log2(npix2nside(shape0 / tile_width^2)))`, backed by the other
constructor fields of healpix.py lines 80-86. -/
theorem healpix_to_hips_tile_meta {α : Type} [Inhabited α] {hpx : NpArray α}
    {w i : Nat} {ff fr : String} {tile : HipsTile (TileData α)}
    (h : healpix_to_hips_tile hpx w i ff fr = Except.ok tile) :
    ∃ nside, npix2nside_ratio hpx.shape0 (w ^ 2) = some nside ∧
      tile.meta = { order := intLog2 nside, ipix := i, file_format := ff,
                    frame := fr, width := some w } := by
  rw [healpix_to_hips_tile] at h
  cases hd : extractData hpx w i ff with
  | error e =>
    rw [hd] at h
    simp only [bind, Except.bind] at h
    exact Except.noConfusion h
  | ok data =>
    rw [hd] at h
    cases hs : npix2nside_ratio hpx.shape0 (w ^ 2) with
    | none =>
      rw [show sourceOrder hpx.shape0 (w ^ 2) = Except.error HipsError.npixError by
        unfold sourceOrder; rw [hs]] at h
      simp only [bind, Except.bind] at h
      exact Except.noConfusion h
    | some nside =>
      rw [sourceOrder_some hs] at h
      simp only [bind, Except.bind, pure, Except.pure, Except.ok.injEq] at h
      exact ⟨nside, rfl, by rw [← h]; rfl⟩

/-- Counterexample to C7 as stated: for the 12-pixel full-sky map with
`tile_width = 1` (so `npix = 12 * 4^0 * 1^2`), the extractor stores order 0,
while the claimed formula `log2(sqrt(npix / tile_width^2))` evaluates (as a
floor, its exact real value `log2(sqrt 12) ≈ 1.79` is not even an integer)
to 1. -/
theorem C7_claimed_formula_counterexample :
    healpix_to_hips_tile (NpArray.nd1 (List.replicate 12 (0 : Nat))) 1 0 "fits" "icrs"
      = Except.ok (HipsTile.from_numpy
          { order := 0, ipix := 0, file_format := "fits", frame := "icrs",
            width := some 1 }
          (TileData.grid1 [[0]]))
    ∧ intLog2 (intSqrt ((List.replicate 12 (0 : Nat)).length / 1 ^ 2)) = 1
    ∧ (0 : Nat) ≠ 1 := by
  refine ⟨by decide, by decide, by decide⟩

/-- C7 (amended): for `npix = 12 * 4^k * tile_width^2` the stored order is
`k = log2(sqrt(npix / (12 * tile_width^2)))`; the code's `npix2nside`
divides by 12 before the square root, which the claimed formula omitted. -/
theorem C7_amended_source_order {α : Type} [Inhabited α] (hpx : NpArray α)
    (tile_width tile_idx k t : Nat) (file_format frame : String)
    (tile : HipsTile (TileData α))
    (hw : tile_width = 2 ^ t)
    (hnpix : hpx.shape0 = 12 * 4 ^ k * tile_width ^ 2)
    (hok : healpix_to_hips_tile hpx tile_width tile_idx file_format frame
      = Except.ok tile) :
    tile.meta.order = k := by
  obtain ⟨nside, hns, hmeta⟩ := healpix_to_hips_tile_meta hok
  have hw2 : 0 < tile_width ^ 2 := by
    rw [hw]
    positivity
  have hexact : npix2nside_ratio hpx.shape0 (tile_width ^ 2) = some (2 ^ k) := by
    rw [hnpix]
    have h4 : (12 : Nat) * 4 ^ k * tile_width ^ 2
        = 12 * (2 ^ k) ^ 2 * tile_width ^ 2 := by
      have : ((2 : Nat) ^ k) ^ 2 = 4 ^ k := by
        rw [← pow_mul, Nat.mul_comm, pow_mul]
        norm_num
      rw [this]
    rw [h4]
    exact npix2nside_ratio_exact hw2
  rw [hns, Option.some.injEq] at hexact
  rw [hmeta]
  simp only
  rw [hexact, intLog2_two_pow]

/-- Witness for the amended C7 at the concrete 12-pixel map, `tile_width = 1`,
`k = 0`. -/
theorem C7_amended_source_order_witness :
    (HipsTile.from_numpy
      { order := 0, ipix := 0, file_format := "fits", frame := "icrs",
        width := some 1 }
      (TileData.grid1 [[(0 : Nat)]])).meta.order = 0 :=
  C7_amended_source_order (NpArray.nd1 (List.replicate 12 (0 : Nat))) 1 0 0 0
    "fits" "icrs" _ (by decide) (by decide) (by decide)

/-! ## Claim C6: the extraction round-trip -/

/-- C6: for a power-of-two tile width, an input whose pixel count is a
multiple of `tile_width ^ 2` and a tile index below that multiple, undoing
the 90° rotation on the buffer returned by the extractor and scattering back
through the nested-order index permutation recovers exactly the original
pixel values at absolute indices
`[tile_idx * tile_width^2, (tile_idx + 1) * tile_width^2)`.  The pixel type
is arbitrary: scalars for `fits`, channel rows for `jpg`/`png`. -/
theorem C6_tile_roundtrip {π : Type} [Inhabited π] (pix : List π) (s m tidx : Nat)
    (hlen : pix.length = m * (2 ^ s) ^ 2) (ht : tidx < m) :
    ∃ buf, extractTileBuffer pix (2 ^ s) tidx = some buf ∧
      scatterNested s (unrot90 (2 ^ s) buf)
        = (pix.drop (tidx * (2 ^ s) ^ 2)).take ((2 ^ s) ^ 2) := by
  have hn : 0 < 2 ^ s := pow_pos (by omega) s
  have hpow : (2 ^ s) ^ 2 = 4 ^ s := by
    rw [← pow_mul, Nat.mul_comm, pow_mul]
    norm_num
  have hoff : tidx * (2 ^ s) ^ 2 + (2 ^ s) ^ 2 ≤ pix.length := by
    have h1 : (tidx + 1) * (2 ^ s) ^ 2 ≤ m * (2 ^ s) ^ 2 :=
      Nat.mul_le_mul_right _ (by omega)
    rw [Nat.succ_mul] at h1
    omega
  have hcond : ∀ r < 2 ^ s, ∀ c < 2 ^ s,
      tidx * (2 ^ s) ^ 2 + hips_tile_healpix_ipix_array s r c < pix.length := by
    intro r hr c hc
    have hlt : ipixInterleave s r c < 4 ^ s := ipixInterleave_lt hr hc
    simp only [hips_tile_healpix_ipix_array]
    omega
  have hg : gatherTile pix (tidx * (2 ^ s) ^ 2) (2 ^ s)
        (hips_tile_healpix_ipix_array s)
      = some ((List.range (2 ^ s)).map fun r => (List.range (2 ^ s)).map fun c =>
          pix.getD (tidx * (2 ^ s) ^ 2 + hips_tile_healpix_ipix_array s r c)
            default) := by
    rw [gatherTile, if_pos hcond]
  refine ⟨rot90 (2 ^ s) ((List.range (2 ^ s)).map fun r =>
      (List.range (2 ^ s)).map fun c =>
        pix.getD (tidx * (2 ^ s) ^ 2 + hips_tile_healpix_ipix_array s r c) default),
    ?_, ?_⟩
  · simp only [extractTileBuffer, intLog2_two_pow]
    rw [hg]
    rfl
  · apply List.ext_getElem
    · simp only [scatterNested, List.length_map, List.length_range,
        List.length_take, List.length_drop]
      omega
    · intro p hp1 hp2
      have hp4 : p < 4 ^ s := by
        simpa [scatterNested] using hp1
      obtain ⟨hq1, hq2⟩ := ipixDeinterleave_lt (s := s) (p := p) hp4
      simp only [scatterNested, List.getElem_map, List.getElem_range]
      simp only [unrot90]
      rw [getD_range_map _ _ hq1, getD_range_map _ _ hq2]
      simp only [rot90]
      rw [getD_range_map _ _
          (show 2 ^ s - 1 - (ipixDeinterleave s p).2 < 2 ^ s by omega),
        getD_range_map _ _ hq1]
      have he : 2 ^ s - 1 - (2 ^ s - 1 - (ipixDeinterleave s p).2)
          = (ipixDeinterleave s p).2 := by
        omega
      rw [he, getD_range_map _ _ hq1, getD_range_map _ _ hq2]
      simp only [hips_tile_healpix_ipix_array]
      rw [ipixInterleave_deinterleave hp4]
      simp only [List.getElem_take, List.getElem_drop]
      rw [List.getD_eq_getElem?_getD,
        List.getElem?_eq_getElem (show tidx * (2 ^ s) ^ 2 + p < pix.length by omega)]
      rfl

/-- Witness for C6: twelve pixels, tile width 2, tile index 2 of 3. -/
theorem C6_tile_roundtrip_witness :
    ∃ buf, extractTileBuffer (List.range 12) (2 ^ 1) 2 = some buf ∧
      scatterNested 1 (unrot90 (2 ^ 1) buf)
        = ((List.range 12).drop (2 * (2 ^ 1) ^ 2)).take ((2 ^ 1) ^ 2) :=
  C6_tile_roundtrip (List.range 12) 1 3 2 (by decide) (by decide)

/-! ## Claim C8: the converter's write trace -/

/-- Event classifier: is this a survey-properties write? -/
def FsEvent.isPropsWrite : FsEvent α → Bool
  | .writeProperties _ _ => true
  | _ => false

/-- The tile carried by a tile-write event, if any. -/
def FsEvent.tileWritten : FsEvent α → Option (HipsTile (TileData α))
  | .writeTile t _ => some t
  | _ => none

/-- A successful extraction stores the requested tile index in the meta. -/
theorem healpix_to_hips_tile_ipix {α : Type} [Inhabited α] {hpx : NpArray α}
    {w i : Nat} {ff fr : String} {tile : HipsTile (TileData α)}
    (h : healpix_to_hips_tile hpx w i ff fr = Except.ok tile) :
    tile.meta.ipix = i := by
  obtain ⟨nside, _, hmeta⟩ := healpix_to_hips_tile_meta h
  rw [hmeta]

/-- Behaviour of the converter's tile loop on a run without failures: no
properties write, one tile write per index (with the extractor's own tile, in
order) at the tile's canonical path. -/
theorem hipsWriteLoop_spec {α : Type} [Inhabited α] (hpx : NpArray α) (w : Nat)
    (base : List String) (ff fr : String) (idxs : List Nat)
    (hok : (hipsWriteLoop hpx w base ff fr idxs).2 = none) :
    (∀ e ∈ (hipsWriteLoop hpx w base ff fr idxs).1, e.isPropsWrite = false) ∧
    (hipsWriteLoop hpx w base ff fr idxs).1.filterMap FsEvent.tileWritten
      = idxs.filterMap (fun i => (healpix_to_hips_tile hpx w i ff fr).toOption) ∧
    ((hipsWriteLoop hpx w base ff fr idxs).1.filterMap FsEvent.tileWritten).map
        (fun t => t.meta.ipix) = idxs ∧
    (∀ t p, FsEvent.writeTile t p ∈ (hipsWriteLoop hpx w base ff fr idxs).1 →
      p = base ++ tile_default_path t.meta) := by
  induction idxs with
  | nil =>
    exact ⟨fun e he => absurd he (List.not_mem_nil e), rfl, rfl,
      fun t p h => absurd h (List.not_mem_nil _)⟩
  | cons i rest ih =>
    cases hx : healpix_to_hips_tile hpx w i ff fr with
    | error e =>
      rw [hipsWriteLoop, hx] at hok
      exact Option.noConfusion hok
    | ok tile =>
      rw [hipsWriteLoop, hx] at hok ⊢
      simp only at hok ⊢
      obtain ⟨ih1, ih2, ih3, ih4⟩ := ih hok
      have hL : List.filterMap FsEvent.tileWritten
          (FsEvent.mkdir (base ++ tile_default_path tile.meta).dropLast
            :: FsEvent.writeTile tile (base ++ tile_default_path tile.meta)
            :: (hipsWriteLoop hpx w base ff fr rest).1)
          = tile :: List.filterMap FsEvent.tileWritten
              (hipsWriteLoop hpx w base ff fr rest).1 := rfl
      refine ⟨?_, ?_, ?_, ?_⟩
      · intro e he
        rcases List.mem_cons.mp he with rfl | he
        · rfl
        · rcases List.mem_cons.mp he with rfl | he
          · rfl
          · exact ih1 e he
      · rw [hL, ih2, List.filterMap_cons]
        simp only [hx, Except.toOption]
      · rw [hL, List.map_cons, ih3, healpix_to_hips_tile_ipix hx]
      · intro t p hmem
        rcases List.mem_cons.mp hmem with heq | hmem
        · exact FsEvent.noConfusion heq
        · rcases List.mem_cons.mp hmem with heq | hmem
          · injection heq with h1 h2
            rw [h2, h1]
          · exact ih4 t p hmem

/-- C8: on a failure-free run the converter first creates the base directory,
then writes the survey-properties descriptor `{file_format, tile_width,
frame}` exactly once, to `base_path/properties`, before any tile; it then
writes exactly `n_tiles = shape0 / tile_width^2` tiles (integer division:
trailing pixels are ignored), the extractor's tile for each index
`0, …, n_tiles - 1` in increasing order, each at its canonical path. -/
theorem C8_converter_props_once_then_tiles_in_order {α : Type} [Inhabited α]
    (hpx : NpArray α) (tile_width : Nat) (base_path : List String)
    (file_format frame : String)
    (hok : (healpix_to_hips hpx tile_width base_path file_format frame).2 = none) :
    ∃ tevs,
      (healpix_to_hips hpx tile_width base_path file_format frame).1
        = FsEvent.mkdir base_path
          :: FsEvent.writeProperties
              { hips_tile_format := file_format, hips_tile_width := tile_width,
                hips_frame := frame }
              (base_path ++ ["properties"])
          :: tevs
      ∧ (∀ e ∈ tevs, e.isPropsWrite = false)
      ∧ tevs.filterMap FsEvent.tileWritten
          = (List.range (hpx.shape0 / tile_width ^ 2)).filterMap
              (fun i =>
                (healpix_to_hips_tile hpx tile_width i file_format frame).toOption)
      ∧ (tevs.filterMap FsEvent.tileWritten).map (fun t => t.meta.ipix)
          = List.range (hpx.shape0 / tile_width ^ 2)
      ∧ ∀ t p, FsEvent.writeTile t p ∈ tevs →
          p = base_path ++ tile_default_path t.meta := by
  obtain ⟨h1, h2, h3, h4⟩ := hipsWriteLoop_spec hpx tile_width base_path
    file_format frame (List.range (hpx.shape0 / tile_width ^ 2)) hok
  exact ⟨_, rfl, h1, h2, h3, h4⟩

/-- Witness for C8: the 12-pixel map converted with tile width 1. -/
theorem C8_converter_props_once_then_tiles_in_order_witness :
    ∃ tevs,
      (healpix_to_hips (NpArray.nd1 (List.replicate 12 (0 : Nat))) 1 ["out"]
          "fits" "icrs").1
        = FsEvent.mkdir ["out"]
          :: FsEvent.writeProperties
              { hips_tile_format := "fits", hips_tile_width := 1,
                hips_frame := "icrs" }
              (["out"] ++ ["properties"])
          :: tevs
      ∧ (∀ e ∈ tevs, e.isPropsWrite = false)
      ∧ tevs.filterMap FsEvent.tileWritten
          = (List.range ((NpArray.nd1 (List.replicate 12 (0 : Nat))).shape0 / 1 ^ 2)).filterMap
              (fun i =>
                (healpix_to_hips_tile (NpArray.nd1 (List.replicate 12 (0 : Nat))) 1 i
                  "fits" "icrs").toOption)
      ∧ (tevs.filterMap FsEvent.tileWritten).map (fun t => t.meta.ipix)
          = List.range ((NpArray.nd1 (List.replicate 12 (0 : Nat))).shape0 / 1 ^ 2)
      ∧ ∀ t p, FsEvent.writeTile t p ∈ tevs →
          p = ["out"] ++ tile_default_path t.meta :=
  C8_converter_props_once_then_tiles_in_order
    (NpArray.nd1 (List.replicate 12 (0 : Nat))) 1 ["out"] "fits" "icrs" (by decide)

end Hips
